import Mathlib

/-!
Shallow embedding of the login-code lifecycle of the portfolio backend
(`src/auth/auth.service.ts`, the metadata-aware revision).  The TypeORM
repositories are modelled as in-memory lists inside a `Store`; `Date.now()`
becomes an explicit `now : Int` (milliseconds); `randomInt` becomes an
explicit digit source (`Rng`); the mail provider becomes a `MailBehavior`
that says whether each kind of send succeeds, together with a trace of the
mails that were successfully sent.
-/

deriving instance DecidableEq for Except

namespace MSBackend

/-- Milliseconds since the Unix epoch (`Date.getTime()` values). -/
abbrev Millis := Int

/-- `users` row (`user.entity.ts`).  Ids are opaque; we use `Nat`. -/
structure User where
  id : Nat
  email : String
  firstName : Option String := none
  lastName : Option String := none
  preferredLanguage : Option String := none
  deriving Repr, DecidableEq

/-- `login_tokens` row (`login-token.entity.ts`). -/
structure LoginToken where
  id : Nat
  code : String
  userId : Nat
  expiresAt : Millis
  consumedAt : Option Millis := none
  revoked : Bool := false
  createdAt : Millis := 0
  deriving Repr, DecidableEq

/-- The relational row store backing both repositories.  `nextUserId` and
`nextTokenId` model the generated primary keys. -/
structure Store where
  users : List User := []
  tokens : List LoginToken := []
  nextUserId : Nat := 0
  nextTokenId : Nat := 0
  deriving Repr, DecidableEq

/-- `LoginCodeRequestMetadata` from `auth.service.ts`. -/
structure LoginCodeRequestMetadata where
  firstName : Option String := none
  lastName : Option String := none
  phone : Option String := none
  company : Option String := none
  language : Option String := none
  country : Option String := none
  deviceType : Option String := none
  browserName : Option String := none
  browserVersion : Option String := none
  osName : Option String := none
  osVersion : Option String := none
  userAgent : Option String := none
  ipAddress : Option String := none
  deriving Repr, DecidableEq

/-- JS `String.prototype.toLowerCase`, modelled per character (ASCII case
mapping, which covers every input in this development). -/
def jsToLower (s : String) : String :=
  ⟨s.data.map Char.toLower⟩

/-- JS `String.prototype.trim`: strip leading and trailing whitespace. -/
def jsTrim (s : String) : String :=
  ⟨((s.data.dropWhile Char.isWhitespace).reverse.dropWhile Char.isWhitespace).reverse⟩

/-- `value.trim().toLowerCase()` (AuthService.normalizeEmail). -/
def normalizeEmail (value : String) : String :=
  jsToLower (jsTrim value)

/-- `field?.trim() || undefined`: JS `||` turns the empty string into
`undefined`. -/
def sanitizeField (v : Option String) : Option String :=
  v.bind fun raw =>
    let t := jsTrim raw
    if t = "" then none else some t

/-- `language?.trim().toLowerCase() || undefined`. -/
def sanitizeLanguage (v : Option String) : Option String :=
  v.bind fun raw =>
    let t := jsToLower (jsTrim raw)
    if t = "" then none else some t

/-- The `sanitizedMetadata` object built at the top of `requestLoginCode`. -/
def sanitizeMetadata (m : LoginCodeRequestMetadata) : LoginCodeRequestMetadata :=
  { firstName := sanitizeField m.firstName
    lastName := sanitizeField m.lastName
    phone := sanitizeField m.phone
    company := sanitizeField m.company
    language := sanitizeLanguage m.language
    country := sanitizeField m.country
    deviceType := sanitizeField m.deviceType
    browserName := sanitizeField m.browserName
    browserVersion := sanitizeField m.browserVersion
    osName := sanitizeField m.osName
    osVersion := sanitizeField m.osVersion
    userAgent := sanitizeField m.userAgent
    ipAddress := sanitizeField m.ipAddress }

/-- Errors surfaced by the service: `BadRequestException`,
`UnauthorizedException`, and a thrown mail-provider error. -/
inductive AuthError where
  | badRequest (msg : String)
  | unauthorized (msg : String)
  | mailFailure
  deriving Repr, DecidableEq

def invalidCodeOrEmailMsg : String := "Nieprawidłowy kod lub e-mail."

def codeAlreadyUsedMsg : String := "Kod został już wykorzystany."

def codeExpiredMsg : String := "Kod wygasł."

def noAccountMsg : String :=
  "Nie znaleziono konta dla podanego adresu. Wybierz opcję „Uzyskaj kod dla nowego użytkownika” i wypełnij formularz."

/-- The `action` field of the admin notification. -/
inductive NotifyAction where
  | newToken
  | tokenReminder
  deriving Repr, DecidableEq

/-- A successfully delivered mail (the fields the auth logic controls). -/
inductive MailEvent where
  | loginCode (recipient : String) (code : String) (isReminder : Bool)
  | accessNotify (requesterEmail : String) (action : NotifyAction)
  deriving Repr, DecidableEq

/-- Whether each kind of mail send succeeds on this call (a failed send
throws inside the mail service). -/
structure MailBehavior where
  loginEmailOk : Bool := true
  notifyOk : Bool := true
  deriving Repr, DecidableEq

/-- `tokenTtlMs` as computed in the constructor:
`config.get('LOGIN_CODE_TTL_HOURS', 24) * 60 * 60 * 1000`. -/
def tokenTtlMs (cfgTtlHours : Option Nat) : Millis :=
  ((cfgTtlHours.getD 24 : Nat) : Int) * 60 * 60 * 1000

/-- Digit sources standing for `randomInt(0, 10)`: one digit stream per
retry attempt of `createUniqueCode`, plus one stream for the length-8
fallback call. -/
structure Rng where
  attemptDigits : Nat → Nat → Fin 10
  fallbackDigits : Nat → Fin 10

/-- `generateCode(length)`: the while loop appends `randomInt(0,10).toString()`
(one decimal character) until the string has `length` characters, so it runs
exactly `length` times. -/
def generateCode (digits : Nat → Fin 10) (length : Nat) : String :=
  (List.range length).foldl (fun code i => code ++ (digits i).val.repr) ""

/-- The candidate produced by the `attempt`-th loop iteration of
`createUniqueCode` (a `generateCode()` call with the default length 6). -/
def genCandidate (r : Rng) (attempt : Nat) : String :=
  generateCode (r.attemptDigits attempt) 6

/-- The `generateCode(8)` fallback value. -/
def genFallback (r : Rng) : String :=
  generateCode r.fallbackDigits 8

/-- `loginTokenRepository.exists({ where: { code } })`. -/
def codeExists (tokens : List LoginToken) (c : String) : Bool :=
  tokens.any fun t => t.code == c

/-- Every character of the string is a decimal digit. -/
def isDigitString (str : String) : Bool :=
  str.data.all fun c => c.isDigit

/-- The retry loop of `createUniqueCode`, with `fuel` remaining attempts. -/
def createUniqueCodeGo (tokens : List LoginToken) (r : Rng) : Nat → Nat → String
  | _, 0 => genFallback r
  | attempt, fuel + 1 =>
    let code := genCandidate r attempt
    if codeExists tokens code then createUniqueCodeGo tokens r (attempt + 1) fuel
    else code

/-- `const maxTries = 10`. -/
def maxTries : Nat := 10

/-- `createUniqueCode()`: up to 10 candidates checked against the store,
then `generateCode(8)` with no further check. -/
def createUniqueCode (tokens : List LoginToken) (r : Rng) : String :=
  createUniqueCodeGo tokens r 0 maxTries

/-- The bulk UPDATE at the start of `generateLoginToken`:
`SET revoked = true WHERE userId = :userId AND revoked = false AND
consumedAt IS NULL`. -/
def revokeActiveTokens (userId : Nat) (tokens : List LoginToken) : List LoginToken :=
  tokens.map fun t =>
    if t.userId == userId && t.revoked == false && t.consumedAt == none then
      { t with revoked := true }
    else t

/-- Result of `generateLoginToken`: the thrown-or-returned value, the store
it leaves behind, and the mails delivered. -/
structure GenerateOutcome where
  result : Except AuthError LoginToken
  store : Store
  mails : List MailEvent
  deriving Repr

/-- `generateLoginToken(user, options)`: revoke all active tokens of the
user, mint a unique code, save the fresh token, then (optionally) email it.
The token is saved before the email is sent, so a mail failure leaves the
token in the store and propagates as an error.  `mintedToken` is the row
built by `loginTokenRepository.create`. -/
def mintedToken (s : Store) (user : User) (r : Rng) (now ttlMs : Millis) :
    LoginToken :=
  { id := s.nextTokenId,
    code := createUniqueCode (revokeActiveTokens user.id s.tokens) r,
    userId := user.id, expiresAt := now + ttlMs, consumedAt := none,
    revoked := false, createdAt := now }

def generateLoginToken (s : Store) (user : User) (sendEmail : Bool) (r : Rng)
    (mail : MailBehavior) (now ttlMs : Millis) : GenerateOutcome :=
  let token := mintedToken s user r now ttlMs
  let s1 : Store :=
    { s with tokens := revokeActiveTokens user.id s.tokens ++ [token],
             nextTokenId := s.nextTokenId + 1 }
  if sendEmail then
    if mail.loginEmailOk then
      { result := .ok token, store := s1,
        mails := [.loginCode user.email token.code false] }
    else
      { result := .error .mailFailure, store := s1, mails := [] }
  else
    { result := .ok token, store := s1, mails := [] }

/-- `usersRepository.findOne({ where: { email } })`. -/
def findUserByEmail (s : Store) (normalizedEmail : String) : Option User :=
  s.users.find? fun u => u.email == normalizedEmail

/-- `loginTokenRepository.findOne({ where: { userId, code, revoked: false } })`
in `verifyLoginCode`. -/
def findLoginToken (s : Store) (userId : Nat) (code : String) : Option LoginToken :=
  s.tokens.find? fun t => t.userId == userId && t.code == code && t.revoked == false

/-- The existing-token lookup in `requestLoginCode`.  The source writes
`where: { userId, revoked: false, consumedAt: undefined }`; TypeORM drops
`undefined` entries from `where`, so only `userId` and `revoked` filter. -/
def findExistingToken (tokens : List LoginToken) (userId : Nat) : Option LoginToken :=
  tokens.find? fun t => t.userId == userId && t.revoked == false

/-- `consumedAt`/`revoked` write of a successful verification, saved by
primary key. -/
def consumeToken (tokenId : Nat) (now : Millis) (tokens : List LoginToken) :
    List LoginToken :=
  tokens.map fun t =>
    if t.id == tokenId then { t with consumedAt := some now, revoked := true }
    else t

/-- The JWT payload `{ sub: user.id, email: user.email }`. -/
structure SessionPayload where
  sub : Nat
  email : String
  deriving Repr, DecidableEq

/-- A signed session token: the payload plus the `expiresIn` passed to
`jwtService.signAsync` (`Math.floor(tokenTtlMs / 1000)` seconds). -/
structure SignedToken where
  payload : SessionPayload
  expiresInSeconds : Int
  deriving Repr, DecidableEq

/-- The `user` part of `VerifyResult`. -/
structure VerifiedUser where
  id : Nat
  email : String
  firstName : Option String
  lastName : Option String
  deriving Repr, DecidableEq

/-- `VerifyResult` from `auth.service.ts`. -/
structure VerifyResult where
  accessToken : SignedToken
  expiresAt : Millis
  user : VerifiedUser
  deriving Repr, DecidableEq

/-- `verifyLoginCode(email, code)`.  Returns the thrown-or-returned value
together with the store it leaves behind. -/
def verifyLoginCode (s : Store) (email code : String) (now ttlMs : Millis) :
    Except AuthError VerifyResult × Store :=
  match findUserByEmail s (normalizeEmail email) with
  | none => (.error (.unauthorized invalidCodeOrEmailMsg), s)
  | some user =>
    match findLoginToken s user.id code with
    | none => (.error (.unauthorized invalidCodeOrEmailMsg), s)
    | some loginToken =>
      if loginToken.consumedAt.isSome then
        (.error (.unauthorized codeAlreadyUsedMsg), s)
      else if loginToken.expiresAt < now then
        (.error (.unauthorized codeExpiredMsg), s)
      else
        let s1 : Store := { s with tokens := consumeToken loginToken.id now s.tokens }
        (.ok { accessToken :=
                 { payload := { sub := user.id, email := user.email },
                   expiresInSeconds := ttlMs / 1000 },
               expiresAt := now + ttlMs,
               user := { id := user.id, email := user.email,
                         firstName := user.firstName, lastName := user.lastName } },
         s1)

/-- The guard of the auto-creation branch:
`!user && sanitizedMetadata?.firstName && sanitizedMetadata?.lastName`.
Returns the (sanitized) first and last name when both are present. -/
def autoCreateNames (mdS : Option LoginCodeRequestMetadata) :
    Option (String × String) :=
  match mdS with
  | some m =>
    match m.firstName, m.lastName with
    | some f, some l => some (f, l)
    | _, _ => none
  | none => none

/-- The `updates : Partial<User>` object: a name field is included only when
the sanitized value is present and differs from the user's current value. -/
def profileUpdates (u : User) (m : LoginCodeRequestMetadata) :
    Option String × Option String :=
  (match m.firstName with
   | some f => if some f = u.firstName then none else some f
   | none => none,
   match m.lastName with
   | some l => if some l = u.lastName then none else some l
   | none => none)

/-- Applying an `updates` object to a user row. -/
def applyUpdates (upd : Option String × Option String) (w : User) : User :=
  let w1 := match upd.1 with
    | some f => { w with firstName := some f }
    | none => w
  match upd.2 with
  | some l => { w1 with lastName := some l }
  | none => w1

/-- The profile-update block of `requestLoginCode`: when `updates` is
non-empty, `usersRepository.update(user.id, updates)` runs and the local
`user` is replaced by `{ ...user, ...updates }`. -/
def applyProfileUpdates (s : Store) (u : User)
    (mdS : Option LoginCodeRequestMetadata) : User × Store :=
  match mdS with
  | none => (u, s)
  | some m =>
    let upd := profileUpdates u m
    if upd = (none, none) then (u, s)
    else
      (applyUpdates upd u,
       { s with users := s.users.map fun w =>
           if w.id == u.id then applyUpdates upd w else w })

/-- The preferred-language update:
`if (sanitizedMetadata?.language && language !== user.preferredLanguage)`. -/
def applyLanguageUpdate (s : Store) (u : User)
    (mdS : Option LoginCodeRequestMetadata) : User × Store :=
  match mdS.bind (fun m => m.language) with
  | none => (u, s)
  | some lg =>
    if some lg = u.preferredLanguage then (u, s)
    else
      ({ u with preferredLanguage := some lg },
       { s with users := s.users.map fun w =>
           if w.id == u.id then { w with preferredLanguage := some lg } else w })

/-- The value `requestLoginCode` resolves with. -/
structure RequestResponse where
  codeSent : Bool
  existingTokenValid : Bool
  validUntil : Option Millis
  resentExistingToken : Bool
  deriving Repr, DecidableEq

/-- Result of `requestLoginCode`: the thrown-or-returned value, the store
left behind, and the mails delivered. -/
structure RequestOutcome where
  result : Except AuthError RequestResponse
  store : Store
  mails : List MailEvent
  deriving Repr

/-- The fresh-token tail of `requestLoginCode`: `generateLoginToken` with
`sendEmail: true` (a login-email failure propagates, leaving the saved
token behind), then the admin notification inside its own try/catch (a
failure there is logged and swallowed). -/
def newTokenOutcome (s : Store) (u : User) (normalizedEmail : String) (r : Rng)
    (mail : MailBehavior) (now ttlMs : Millis) : RequestOutcome :=
  let g := generateLoginToken s u true r mail now ttlMs
  match g.result with
  | .error e => { result := .error e, store := g.store, mails := g.mails }
  | .ok token =>
    { result := .ok { codeSent := true, existingTokenValid := false,
                      validUntil := some token.expiresAt,
                      resentExistingToken := false },
      store := g.store,
      mails := g.mails ++
        (if mail.notifyOk then [.accessNotify normalizedEmail .newToken] else []) }

/-- `requestLoginCode` after the user is resolved: profile/language updates,
the existing-token check, then either the reminder path (whose reminder
email and admin notification sit in one try/catch, so mail failures are
swallowed) or the fresh-token path. -/
def requestWithUser (s : Store) (u : User) (normalizedEmail : String)
    (mdS : Option LoginCodeRequestMetadata) (r : Rng) (mail : MailBehavior)
    (now ttlMs : Millis) : RequestOutcome :=
  let us1 := applyProfileUpdates s u mdS
  let us2 := applyLanguageUpdate us1.2 us1.1 mdS
  let u2 := us2.1
  let s2 := us2.2
  match findExistingToken s2.tokens u2.id with
  | some t =>
    if now < t.expiresAt then
      { result := .ok { codeSent := false, existingTokenValid := true,
                        validUntil := some t.expiresAt,
                        resentExistingToken := true },
        store := s2,
        mails :=
          if mail.loginEmailOk then
            .loginCode u2.email t.code true ::
              (if mail.notifyOk then
                 [.accessNotify normalizedEmail .tokenReminder]
               else [])
          else [] }
    else newTokenOutcome s2 u2 normalizedEmail r mail now ttlMs
  | none => newTokenOutcome s2 u2 normalizedEmail r mail now ttlMs

/-- `requestLoginCode(email, refreshUrl, metadata)`: normalize the email,
sanitize the metadata, auto-create the user when absent and both names are
supplied (otherwise throw `BadRequestException`), then continue with
`requestWithUser`. -/
def requestLoginCode (s : Store) (email : String)
    (metadata : Option LoginCodeRequestMetadata) (r : Rng) (mail : MailBehavior)
    (now ttlMs : Millis) : RequestOutcome :=
  let normalizedEmail := normalizeEmail email
  let mdS := metadata.map sanitizeMetadata
  match findUserByEmail s normalizedEmail with
  | some u => requestWithUser s u normalizedEmail mdS r mail now ttlMs
  | none =>
    match autoCreateNames mdS with
    | some fl =>
      let newUser : User :=
        { id := s.nextUserId, email := normalizedEmail,
          firstName := some fl.1, lastName := some fl.2,
          preferredLanguage := some ((mdS.bind (fun m => m.language)).getD "pl") }
      let s1 : Store :=
        { s with users := s.users ++ [newUser], nextUserId := s.nextUserId + 1 }
      requestWithUser s1 newUser normalizedEmail mdS r mail now ttlMs
    | none =>
      { result := .error (.badRequest noAccountMsg), store := s, mails := [] }

/-- A login token counted by the spec's per-user invariant. -/
def isActive (t : LoginToken) : Bool :=
  t.revoked == false && t.consumedAt == none

/-- How many tokens of `userId` are active (`revoked=false ∧ consumedAt=null`). -/
def activeCount (userId : Nat) (tokens : List LoginToken) : Nat :=
  tokens.countP fun t => t.userId == userId && isActive t

/-- The spec's invariant: at most one active login code per user. -/
def activeInvariant (tokens : List LoginToken) : Prop :=
  ∀ userId : Nat, activeCount userId tokens ≤ 1

/-! ### Concrete fixtures used by the witnesses -/

/-- A user on record. -/
def exUser : User := { id := 0, email := "u@x.pl" }

/-- An active, unexpired token of `exUser` (expires at t=100). -/
def exToken : LoginToken :=
  { id := 0, code := "123456", userId := 0, expiresAt := 100 }

/-- A store with one user holding one active token. -/
def exStore : Store :=
  { users := [exUser], tokens := [exToken], nextUserId := 1, nextTokenId := 1 }

/-- A store with one user and no tokens. -/
def exStoreNoToken : Store :=
  { users := [exUser], tokens := [], nextUserId := 1, nextTokenId := 1 }

/-- A deterministic digit source: every candidate digit is 0, every
fallback digit is 1. -/
def exRng : Rng := ⟨fun _ _ => 0, fun _ => 1⟩

/-- Metadata carrying the profile of the spec's worked example. -/
def mdJan : LoginCodeRequestMetadata :=
  { firstName := some "Jan", lastName := some "Kowalski" }

/-- A token of `exUser` that is both consumed and expired (but not revoked,
an arbitrary store state for exercising the check order). -/
def exConsumedToken : LoginToken :=
  { id := 0, code := "123456", userId := 0, expiresAt := 100, consumedAt := some 50 }

/-- `exStore` with the consumed token instead of the active one. -/
def exStoreConsumed : Store :=
  { users := [exUser], tokens := [exConsumedToken], nextUserId := 1, nextTokenId := 1 }

/-- Tokens whose stored codes collide with everything `c8Rng` produces:
every 6-digit candidate is "000000" and the 8-digit fallback is
"11111111", and both already sit in the store. -/
def c8Tokens : List LoginToken :=
  [{ id := 0, code := "000000", userId := 0, expiresAt := 0 },
   { id := 1, code := "11111111", userId := 0, expiresAt := 0 }]

/-- Digit source producing only 0s for candidates and only 1s for the
fallback. -/
def c8Rng : Rng := ⟨fun _ _ => 0, fun _ => 1⟩

/-! ### Helper lemmas -/

theorem countP_ext {α : Type} (p q : α → Bool) (l : List α)
    (h : ∀ a ∈ l, p a = q a) : l.countP p = l.countP q := by
  induction l with
  | nil => rfl
  | cons a l ih =>
    simp only [List.countP_cons, h a (by simp)]
    rw [ih fun b hb => h b (by simp [hb])]

theorem applyUpdates_id (upd : Option String × Option String) (w : User) :
    (applyUpdates upd w).id = w.id := by
  rcases upd with ⟨f, l⟩
  cases f <;> cases l <;> rfl

theorem applyUpdates_email (upd : Option String × Option String) (w : User) :
    (applyUpdates upd w).email = w.email := by
  rcases upd with ⟨f, l⟩
  cases f <;> cases l <;> rfl

theorem applyProfileUpdates_fst_id (s : Store) (u : User)
    (mdS : Option LoginCodeRequestMetadata) :
    (applyProfileUpdates s u mdS).1.id = u.id := by
  cases mdS with
  | none => rfl
  | some m =>
    simp only [applyProfileUpdates]
    split
    · rfl
    · exact applyUpdates_id _ _

theorem applyProfileUpdates_fst_email (s : Store) (u : User)
    (mdS : Option LoginCodeRequestMetadata) :
    (applyProfileUpdates s u mdS).1.email = u.email := by
  cases mdS with
  | none => rfl
  | some m =>
    simp only [applyProfileUpdates]
    split
    · rfl
    · exact applyUpdates_email _ _

theorem applyProfileUpdates_snd_tokens (s : Store) (u : User)
    (mdS : Option LoginCodeRequestMetadata) :
    (applyProfileUpdates s u mdS).2.tokens = s.tokens := by
  cases mdS with
  | none => rfl
  | some m =>
    simp only [applyProfileUpdates]
    split <;> rfl

theorem applyProfileUpdates_snd_nextTokenId (s : Store) (u : User)
    (mdS : Option LoginCodeRequestMetadata) :
    (applyProfileUpdates s u mdS).2.nextTokenId = s.nextTokenId := by
  cases mdS with
  | none => rfl
  | some m =>
    simp only [applyProfileUpdates]
    split <;> rfl

theorem applyLanguageUpdate_fst_id (s : Store) (u : User)
    (mdS : Option LoginCodeRequestMetadata) :
    (applyLanguageUpdate s u mdS).1.id = u.id := by
  simp only [applyLanguageUpdate]
  split
  · rfl
  · split <;> rfl

theorem applyLanguageUpdate_fst_email (s : Store) (u : User)
    (mdS : Option LoginCodeRequestMetadata) :
    (applyLanguageUpdate s u mdS).1.email = u.email := by
  simp only [applyLanguageUpdate]
  split
  · rfl
  · split <;> rfl

theorem applyLanguageUpdate_snd_tokens (s : Store) (u : User)
    (mdS : Option LoginCodeRequestMetadata) :
    (applyLanguageUpdate s u mdS).2.tokens = s.tokens := by
  simp only [applyLanguageUpdate]
  split
  · rfl
  · split <;> rfl

theorem applyLanguageUpdate_snd_nextTokenId (s : Store) (u : User)
    (mdS : Option LoginCodeRequestMetadata) :
    (applyLanguageUpdate s u mdS).2.nextTokenId = s.nextTokenId := by
  simp only [applyLanguageUpdate]
  split
  · rfl
  · split <;> rfl

theorem generateLoginToken_store (s : Store) (u : User) (sendEmail : Bool)
    (r : Rng) (mail : MailBehavior) (now ttlMs : Millis) :
    (generateLoginToken s u sendEmail r mail now ttlMs).store =
      { s with tokens := revokeActiveTokens u.id s.tokens ++
                           [mintedToken s u r now ttlMs],
               nextTokenId := s.nextTokenId + 1 } := by
  simp only [generateLoginToken]
  cases sendEmail <;> cases h : mail.loginEmailOk <;> simp [h]

theorem activeCount_revoke_self (uid : Nat) (ts : List LoginToken) :
    activeCount uid (revokeActiveTokens uid ts) = 0 := by
  unfold activeCount revokeActiveTokens
  rw [List.countP_map, List.countP_eq_zero]
  intro t _
  by_cases h : (t.userId == uid && t.revoked == false && t.consumedAt == none) = true
  · simp only [Function.comp, if_pos h]
    simp [isActive]
  · simp only [Function.comp, if_neg h]
    simp only [isActive, Bool.and_eq_true, beq_iff_eq] at h ⊢
    tauto

theorem activeCount_revoke_other (uid uidB : Nat) (hne : uidB ≠ uid)
    (ts : List LoginToken) :
    activeCount uidB (revokeActiveTokens uid ts) = activeCount uidB ts := by
  unfold activeCount revokeActiveTokens
  rw [List.countP_map]
  apply countP_ext
  intro t _
  by_cases h : (t.userId == uid && t.revoked == false && t.consumedAt == none) = true
  · simp only [Function.comp, if_pos h]
    have huid : t.userId = uid := by
      simp only [Bool.and_eq_true, beq_iff_eq] at h
      exact h.1.1
    simp [isActive, huid, hne, Ne.symm hne]
  · simp only [Function.comp, if_neg h]

theorem activeInvariant_generate (s : Store) (u : User) (sendEmail : Bool)
    (r : Rng) (mail : MailBehavior) (now ttlMs : Millis)
    (h : activeInvariant s.tokens) :
    activeInvariant (generateLoginToken s u sendEmail r mail now ttlMs).store.tokens := by
  intro uid
  rw [generateLoginToken_store]
  show activeCount uid (revokeActiveTokens u.id s.tokens ++ [mintedToken s u r now ttlMs]) ≤ 1
  unfold activeCount
  rw [List.countP_append]
  by_cases huid : uid = u.id
  · have h0 : activeCount u.id (revokeActiveTokens u.id s.tokens) = 0 :=
      activeCount_revoke_self u.id s.tokens
    unfold activeCount at h0
    rw [huid, h0]
    simpa using List.countP_le_length _
  · have hother : activeCount uid (revokeActiveTokens u.id s.tokens) =
        activeCount uid s.tokens :=
      activeCount_revoke_other u.id uid huid s.tokens
    unfold activeCount at hother
    rw [hother]
    have hne2 : u.id ≠ uid := fun hx => huid hx.symm
    have hz : ([mintedToken s u r now ttlMs].countP
        fun t => t.userId == uid && isActive t) = 0 := by
      simp [List.countP_cons, mintedToken, hne2]
    rw [hz]
    simpa using h uid

theorem newTokenOutcome_store (s : Store) (u : User) (ne : String) (r : Rng)
    (mail : MailBehavior) (now ttlMs : Millis) :
    (newTokenOutcome s u ne r mail now ttlMs).store =
      (generateLoginToken s u true r mail now ttlMs).store := by
  simp only [newTokenOutcome]
  cases h : (generateLoginToken s u true r mail now ttlMs).result <;> simp [h]

theorem activeInvariant_newTokenOutcome (s : Store) (u : User) (ne : String)
    (r : Rng) (mail : MailBehavior) (now ttlMs : Millis)
    (h : activeInvariant s.tokens) :
    activeInvariant (newTokenOutcome s u ne r mail now ttlMs).store.tokens := by
  rw [newTokenOutcome_store]
  exact activeInvariant_generate s u true r mail now ttlMs h

theorem activeInvariant_requestWithUser (s : Store) (u : User) (ne : String)
    (mdS : Option LoginCodeRequestMetadata) (r : Rng) (mail : MailBehavior)
    (now ttlMs : Millis) (h : activeInvariant s.tokens) :
    activeInvariant (requestWithUser s u ne mdS r mail now ttlMs).store.tokens := by
  have htoks : (applyLanguageUpdate (applyProfileUpdates s u mdS).2
      (applyProfileUpdates s u mdS).1 mdS).2.tokens = s.tokens := by
    rw [applyLanguageUpdate_snd_tokens, applyProfileUpdates_snd_tokens]
  have h2 : activeInvariant (applyLanguageUpdate (applyProfileUpdates s u mdS).2
      (applyProfileUpdates s u mdS).1 mdS).2.tokens := by
    rw [htoks]; exact h
  simp only [requestWithUser]
  split
  · split
    · exact h2
    · exact activeInvariant_newTokenOutcome _ _ _ _ _ _ _ h2
  · exact activeInvariant_newTokenOutcome _ _ _ _ _ _ _ h2

/-! ### C1 -/

/-- C1: every completed `requestCode` call preserves the per-user invariant
that at most one login token has `revoked=false` and `consumedAt=null`:
`generateLoginToken` first revokes every active token of the user and only
then inserts the single fresh one, and the reminder path touches no token. -/
theorem requestLoginCode_active_invariant (s : Store) (email : String)
    (metadata : Option LoginCodeRequestMetadata) (r : Rng) (mail : MailBehavior)
    (now ttlMs : Millis) (h : activeInvariant s.tokens) :
    activeInvariant
      (requestLoginCode s email metadata r mail now ttlMs).store.tokens := by
  simp only [requestLoginCode]
  cases hfu : findUserByEmail s (normalizeEmail email) with
  | some u => exact activeInvariant_requestWithUser _ _ _ _ _ _ _ _ h
  | none =>
    cases hac : autoCreateNames ((metadata.map sanitizeMetadata)) with
    | some fl => exact activeInvariant_requestWithUser _ _ _ _ _ _ _ _ h
    | none => exact h

/-- Witness for C1: the invariant holds for the one-token fixture store and
is preserved by a completed `requestCode` call on it. -/
theorem requestLoginCode_active_invariant_witness :
    activeInvariant exStore.tokens ∧
      activeInvariant
        (requestLoginCode exStore "u@x.pl" none exRng ⟨true, true⟩ 0 1000).store.tokens := by
  have h : activeInvariant exStore.tokens := by
    intro uid
    simpa [activeCount] using List.countP_le_length _
  exact ⟨h, requestLoginCode_active_invariant exStore "u@x.pl" none exRng ⟨true, true⟩ 0 1000 h⟩

/-! ### C10 -/

/-- C10: `verifyCode` is atomic on failure — whenever it throws, the store
it leaves behind is exactly the store it was called on (every user and
every login token unchanged). -/
theorem verifyLoginCode_error_no_write (s : Store) (email code : String)
    (now ttlMs : Millis) (e : AuthError)
    (h : (verifyLoginCode s email code now ttlMs).1 = .error e) :
    (verifyLoginCode s email code now ttlMs).2 = s := by
  unfold verifyLoginCode at h ⊢
  cases hfu : findUserByEmail s (normalizeEmail email) with
  | none => simp [hfu]
  | some u =>
    cases hft : findLoginToken s u.id code with
    | none => simp [hfu, hft]
    | some t =>
      simp only [hfu, hft] at h ⊢
      by_cases hc : t.consumedAt.isSome
      · simp [hc]
      · by_cases he : t.expiresAt < now
        · simp [hc, he]
        · simp [hc, he] at h

/-- Witness for C10: a wrong code against the fixture store fails and
leaves the store untouched. -/
theorem verifyLoginCode_error_no_write_witness :
    (verifyLoginCode exStore "user@x.com" "000000" 0 1000).1 =
        .error (.unauthorized invalidCodeOrEmailMsg) ∧
      (verifyLoginCode exStore "user@x.com" "000000" 0 1000).2 = exStore := by
  have h : (verifyLoginCode exStore "user@x.com" "000000" 0 1000).1 =
      .error (.unauthorized invalidCodeOrEmailMsg) := by decide
  exact ⟨h, verifyLoginCode_error_no_write exStore "user@x.com" "000000" 0 1000 _ h⟩

/-! ### C5 -/

/-- C5: the unknown-email failure and the no-matching-non-revoked-token
failure of `verifyCode` raise the identical Unauthorized error
"Nieprawidłowy kod lub e-mail.", so the two causes are indistinguishable. -/
theorem verifyLoginCode_indistinguishable (s : Store) (email code : String)
    (now ttlMs : Millis) :
    (findUserByEmail s (normalizeEmail email) = none →
      (verifyLoginCode s email code now ttlMs).1 =
        .error (.unauthorized invalidCodeOrEmailMsg)) ∧
    (∀ u, findUserByEmail s (normalizeEmail email) = some u →
      findLoginToken s u.id code = none →
      (verifyLoginCode s email code now ttlMs).1 =
        .error (.unauthorized invalidCodeOrEmailMsg)) := by
  constructor
  · intro h
    unfold verifyLoginCode
    simp [h]
  · intro u hu ht
    unfold verifyLoginCode
    simp [hu, ht]

/-- Witness for C5: an unknown email, and a known email with a wrong code,
both yield the same error value. -/
theorem verifyLoginCode_indistinguishable_witness :
    (verifyLoginCode exStore "ghost@x.com" "123456" 0 1000).1 =
        .error (.unauthorized invalidCodeOrEmailMsg) ∧
      (verifyLoginCode exStore "u@x.pl" "000000" 0 1000).1 =
        .error (.unauthorized invalidCodeOrEmailMsg) := by
  constructor
  · exact (verifyLoginCode_indistinguishable exStore "ghost@x.com" "123456" 0 1000).1
      (by decide)
  · exact (verifyLoginCode_indistinguishable exStore "u@x.pl" "000000" 0 1000).2
      exUser (by decide) (by decide)

/-! ### C6 -/

/-- C6: on the matched token, `verifyCode` checks consumption before
expiry — a consumed token fails with "Kod został już wykorzystany." even if
it is also expired, and an unconsumed token past its expiry fails with
"Kod wygasł.". -/
theorem verifyLoginCode_consumed_then_expired (s : Store) (email code : String)
    (now ttlMs : Millis) (u : User) (t : LoginToken)
    (hu : findUserByEmail s (normalizeEmail email) = some u)
    (ht : findLoginToken s u.id code = some t) :
    (∀ c, t.consumedAt = some c →
      (verifyLoginCode s email code now ttlMs).1 =
        .error (.unauthorized codeAlreadyUsedMsg)) ∧
    (t.consumedAt = none → t.expiresAt < now →
      (verifyLoginCode s email code now ttlMs).1 =
        .error (.unauthorized codeExpiredMsg)) := by
  constructor
  · intro c hc
    unfold verifyLoginCode
    simp [hu, ht, hc]
  · intro hc he
    unfold verifyLoginCode
    simp [hu, ht, hc, he]

/-- Witness for C6: a consumed-and-expired token reports "already used",
and an unconsumed expired token reports "expired". -/
theorem verifyLoginCode_consumed_then_expired_witness :
    (verifyLoginCode exStoreConsumed "u@x.pl" "123456" 200 1000).1 =
        .error (.unauthorized codeAlreadyUsedMsg) ∧
      (verifyLoginCode exStore "u@x.pl" "123456" 200 1000).1 =
        .error (.unauthorized codeExpiredMsg) := by
  constructor
  · exact (verifyLoginCode_consumed_then_expired exStoreConsumed "u@x.pl" "123456"
      200 1000 exUser exConsumedToken (by decide) (by decide)).1 50 (by decide)
  · exact (verifyLoginCode_consumed_then_expired exStore "u@x.pl" "123456" 200 1000
      exUser exToken (by decide) (by decide)).2 (by decide) (by decide)

/-! ### C4 -/

theorem consumeToken_id_mem (tid : Nat) (now : Millis) (ts : List LoginToken)
    (tk : LoginToken) (hmem : tk ∈ consumeToken tid now ts) (hid : tk.id = tid) :
    tk.consumedAt = some now ∧ tk.revoked = true := by
  unfold consumeToken at hmem
  obtain ⟨t0, ht0, heq⟩ := List.mem_map.1 hmem
  by_cases h : (t0.id == tid) = true
  · rw [if_pos h] at heq
    rw [← heq]
    exact ⟨rfl, rfl⟩
  · rw [if_neg h] at heq
    exfalso
    apply h
    rw [heq, hid]
    exact beq_self_eq_true tid

theorem consumeToken_id_exists (tid : Nat) (now : Millis) (ts : List LoginToken)
    (t : LoginToken) (hmem : t ∈ ts) (hid : t.id = tid) :
    ∃ tk ∈ consumeToken tid now ts, tk.id = tid := by
  refine ⟨{ t with consumedAt := some now, revoked := true }, ?_, hid⟩
  unfold consumeToken
  apply List.mem_map.2
  refine ⟨t, hmem, ?_⟩
  rw [if_pos]
  rw [hid]
  exact beq_self_eq_true tid

/-- C4: a successful `verifyCode` consumes and revokes the matched token,
and returns a session token whose payload is exactly
`{sub: user.id, email: user.email}`, an expiry of `now` plus the configured
TTL (`LOGIN_CODE_TTL_HOURS`, 24 h by default), and the user's id, email,
firstName and lastName. -/
theorem verifyLoginCode_success (s : Store) (email code : String) (now : Millis)
    (cfg : Option Nat) (u : User) (t : LoginToken)
    (hu : findUserByEmail s (normalizeEmail email) = some u)
    (ht : findLoginToken s u.id code = some t)
    (hc : t.consumedAt = none) (he : ¬ t.expiresAt < now) :
    (verifyLoginCode s email code now (tokenTtlMs cfg)).1 =
        .ok { accessToken := { payload := { sub := u.id, email := u.email },
                               expiresInSeconds := tokenTtlMs cfg / 1000 },
              expiresAt := now + tokenTtlMs cfg,
              user := { id := u.id, email := u.email, firstName := u.firstName,
                        lastName := u.lastName } } ∧
      (∀ tk ∈ (verifyLoginCode s email code now (tokenTtlMs cfg)).2.tokens,
        tk.id = t.id → tk.consumedAt = some now ∧ tk.revoked = true) ∧
      (∃ tk ∈ (verifyLoginCode s email code now (tokenTtlMs cfg)).2.tokens,
        tk.id = t.id) ∧
      tokenTtlMs none = 24 * 60 * 60 * 1000 := by
  have hstore : (verifyLoginCode s email code now (tokenTtlMs cfg)).2 =
      { s with tokens := consumeToken t.id now s.tokens } := by
    unfold verifyLoginCode
    simp [hu, ht, hc, he]
  refine ⟨?_, ?_, ?_, by decide⟩
  · unfold verifyLoginCode
    simp [hu, ht, hc, he]
  · intro tk hmem hid
    rw [hstore] at hmem
    exact consumeToken_id_mem t.id now s.tokens tk hmem hid
  · rw [hstore]
    exact consumeToken_id_exists t.id now s.tokens t
      (List.mem_of_find?_eq_some ht) rfl

/-- Witness for C4: verifying the fixture's valid code succeeds with the
expected session token and consumes the token. -/
theorem verifyLoginCode_success_witness :
    (verifyLoginCode exStore "u@x.pl" "123456" 0 (tokenTtlMs (some 1))).1 =
        .ok { accessToken := { payload := { sub := 0, email := "u@x.pl" },
                               expiresInSeconds := 3600 },
              expiresAt := 3600000,
              user := { id := 0, email := "u@x.pl", firstName := none,
                        lastName := none } } ∧
      (∀ tk ∈ (verifyLoginCode exStore "u@x.pl" "123456" 0
          (tokenTtlMs (some 1))).2.tokens,
        tk.id = exToken.id → tk.consumedAt = some 0 ∧ tk.revoked = true) := by
  have h := verifyLoginCode_success exStore "u@x.pl" "123456" 0 (some 1)
    exUser exToken (by decide) (by decide) (by decide) (by decide)
  exact ⟨h.1, h.2.1⟩

/-! ### C2 -/

theorem verifyLoginCode_ok_inversion (s : Store) (email code : String)
    (now ttlMs : Millis) (v : VerifyResult)
    (h : (verifyLoginCode s email code now ttlMs).1 = .ok v) :
    ∃ u t, findUserByEmail s (normalizeEmail email) = some u ∧
      findLoginToken s u.id code = some t ∧
      t.consumedAt = none ∧ ¬ t.expiresAt < now ∧
      (verifyLoginCode s email code now ttlMs).2 =
        { s with tokens := consumeToken t.id now s.tokens } := by
  cases hfu : findUserByEmail s (normalizeEmail email) with
  | none =>
    exfalso
    unfold verifyLoginCode at h
    simp [hfu] at h
  | some u =>
    cases hft : findLoginToken s u.id code with
    | none =>
      exfalso
      unfold verifyLoginCode at h
      simp [hfu, hft] at h
    | some t =>
      by_cases hc : t.consumedAt.isSome
      · exfalso
        unfold verifyLoginCode at h
        simp [hfu, hft, hc] at h
      · by_cases he : t.expiresAt < now
        · exfalso
          unfold verifyLoginCode at h
          simp [hfu, hft, hc, he] at h
        · refine ⟨u, t, rfl, hft, Option.not_isSome_iff_eq_none.1 hc, he, ?_⟩
          unfold verifyLoginCode
          simp [hfu, hft, hc, he]

theorem list_single_of_length_le_one {α : Type} {l : List α} {a b : α}
    (h : l.length ≤ 1) (ha : a ∈ l) (hb : b ∈ l) : a = b := by
  cases l with
  | nil => cases ha
  | cons x xs =>
    cases xs with
    | nil =>
      rw [List.mem_singleton] at ha hb
      rw [ha, hb]
    | cons y ys => simp at h

/-- C2: login codes are one-time use — if `verifyCode(email, code)` succeeds,
running it again with the same email and code against the store the first
call left behind always fails with the Unauthorized
"Nieprawidłowy kod lub e-mail." error.  The hypothesis mirrors the schema's
UNIQUE constraint on the `code` column. -/
theorem verifyLoginCode_one_time (s : Store) (email code : String)
    (now ttlMs nowB ttlMsB : Millis) (v : VerifyResult)
    (huniq : (s.tokens.filter fun tk => tk.code == code).length ≤ 1)
    (hok : (verifyLoginCode s email code now ttlMs).1 = .ok v) :
    (verifyLoginCode (verifyLoginCode s email code now ttlMs).2
        email code nowB ttlMsB).1 =
      .error (.unauthorized invalidCodeOrEmailMsg) := by
  obtain ⟨u, t, hfu, hft, hc, he, hstore⟩ :=
    verifyLoginCode_ok_inversion s email code now ttlMs v hok
  rw [hstore]
  have htmem : t ∈ s.tokens := List.mem_of_find?_eq_some hft
  have htpred := List.find?_some hft
  have htcode : t.code = code := by
    simp only [Bool.and_eq_true, beq_iff_eq] at htpred
    exact htpred.1.2
  have hfuB : findUserByEmail { s with tokens := consumeToken t.id now s.tokens }
      (normalizeEmail email) = some u := hfu
  have hftB : findLoginToken { s with tokens := consumeToken t.id now s.tokens }
      u.id code = none := by
    unfold findLoginToken
    rw [List.find?_eq_none]
    intro x hx hpx
    show False
    obtain ⟨t0, ht0mem, ht0eq⟩ := List.mem_map.1 hx
    have hxcode : x.code = code := by
      simp only [Bool.and_eq_true, beq_iff_eq] at hpx
      exact hpx.1.2
    have ht0code : t0.code = code := by
      by_cases hid : (t0.id == t.id) = true
      · rw [if_pos hid] at ht0eq
        rw [← hxcode, ← ht0eq]
      · rw [if_neg hid] at ht0eq
        rw [← hxcode, ← ht0eq]
    have ht0filter : t0 ∈ s.tokens.filter fun tk => tk.code == code := by
      rw [List.mem_filter]
      exact ⟨ht0mem, by rw [ht0code]; exact beq_self_eq_true code⟩
    have htfilter : t ∈ s.tokens.filter fun tk => tk.code == code := by
      rw [List.mem_filter]
      exact ⟨htmem, by rw [htcode]; exact beq_self_eq_true code⟩
    have ht0t : t0 = t := list_single_of_length_le_one huniq ht0filter htfilter
    rw [ht0t, if_pos (beq_self_eq_true t.id)] at ht0eq
    have : x.revoked = true := by rw [← ht0eq]
    simp only [Bool.and_eq_true, beq_iff_eq] at hpx
    rw [hpx.2] at this
    cases this
  unfold verifyLoginCode
  simp [hfuB, hftB]

/-- Witness for C2: the fixture's valid code verifies once, and the second
verification against the resulting store fails. -/
theorem verifyLoginCode_one_time_witness :
    (exStore.tokens.filter fun tk => tk.code == "123456").length ≤ 1 ∧
      (verifyLoginCode (verifyLoginCode exStore "u@x.pl" "123456" 0 1000).2
          "u@x.pl" "123456" 0 1000).1 =
        .error (.unauthorized invalidCodeOrEmailMsg) := by
  refine ⟨by decide, ?_⟩
  exact verifyLoginCode_one_time exStore "u@x.pl" "123456" 0 1000 0 1000
    { accessToken := { payload := { sub := 0, email := "u@x.pl" },
                       expiresInSeconds := 1 },
      expiresAt := 1000,
      user := { id := 0, email := "u@x.pl", firstName := none, lastName := none } }
    (by decide) (by decide)

/-! ### C3 -/

theorem requestWithUser_reminder (s : Store) (u : User) (ne : String)
    (mdS : Option LoginCodeRequestMetadata) (r : Rng) (mail : MailBehavior)
    (now ttlMs : Millis) (t0 : LoginToken)
    (ht0 : t0 ∈ s.tokens) (huid : t0.userId = u.id) (hrev : t0.revoked = false)
    (hexp : now < t0.expiresAt)
    (huniq : ∀ tk ∈ s.tokens, tk.userId = u.id → tk.revoked = false → tk = t0) :
    requestWithUser s u ne mdS r mail now ttlMs =
      { result := .ok { codeSent := false, existingTokenValid := true,
                        validUntil := some t0.expiresAt,
                        resentExistingToken := true },
        store := (applyLanguageUpdate (applyProfileUpdates s u mdS).2
                   (applyProfileUpdates s u mdS).1 mdS).2,
        mails := if mail.loginEmailOk then
                   .loginCode u.email t0.code true ::
                     (if mail.notifyOk then [.accessNotify ne .tokenReminder]
                      else [])
                 else [] } := by
  have hfe : findExistingToken
      (applyLanguageUpdate (applyProfileUpdates s u mdS).2
        (applyProfileUpdates s u mdS).1 mdS).2.tokens
      (applyLanguageUpdate (applyProfileUpdates s u mdS).2
        (applyProfileUpdates s u mdS).1 mdS).1.id = some t0 := by
    rw [applyLanguageUpdate_snd_tokens, applyProfileUpdates_snd_tokens,
        applyLanguageUpdate_fst_id, applyProfileUpdates_fst_id]
    unfold findExistingToken
    cases hf : s.tokens.find? (fun t => t.userId == u.id && t.revoked == false) with
    | none =>
      exfalso
      rw [List.find?_eq_none] at hf
      exact hf t0 ht0 (by simp [huid, hrev])
    | some t1 =>
      have hp := List.find?_some hf
      have hm := List.mem_of_find?_eq_some hf
      simp only [Bool.and_eq_true, beq_iff_eq] at hp
      rw [huniq t1 hm hp.1 hp.2]
  have hemail : (applyLanguageUpdate (applyProfileUpdates s u mdS).2
      (applyProfileUpdates s u mdS).1 mdS).1.email = u.email := by
    rw [applyLanguageUpdate_fst_email, applyProfileUpdates_fst_email]
  simp only [requestWithUser, hfe, if_pos hexp, hemail]

/-- C3: a `requestCode` call for an existing user holding a still-valid
(unexpired, unconsumed, unrevoked) token inserts no token and revokes
nothing, re-sends that token's code as a reminder email, and returns
`codeSent=false`, `existingTokenValid=true`, `resentExistingToken=true`
with `validUntil` equal to the existing token's expiry.  (The hypotheses
include the data model's invariant that the user holds no other unrevoked
token.) -/
theorem requestLoginCode_reminder (s : Store) (email : String)
    (metadata : Option LoginCodeRequestMetadata) (r : Rng) (mail : MailBehavior)
    (now ttlMs : Millis) (u : User) (t0 : LoginToken)
    (hu : findUserByEmail s (normalizeEmail email) = some u)
    (ht0 : t0 ∈ s.tokens) (huid : t0.userId = u.id) (hrev : t0.revoked = false)
    (_hcons : t0.consumedAt = none) (hexp : now < t0.expiresAt)
    (huniq : ∀ tk ∈ s.tokens, tk.userId = u.id → tk.revoked = false → tk = t0)
    (hmail : mail.loginEmailOk = true) :
    (requestLoginCode s email metadata r mail now ttlMs).store.tokens = s.tokens ∧
      MailEvent.loginCode u.email t0.code true ∈
        (requestLoginCode s email metadata r mail now ttlMs).mails ∧
      (requestLoginCode s email metadata r mail now ttlMs).result =
        .ok { codeSent := false, existingTokenValid := true,
              validUntil := some t0.expiresAt, resentExistingToken := true } := by
  have hreq : requestLoginCode s email metadata r mail now ttlMs =
      requestWithUser s u (normalizeEmail email) (metadata.map sanitizeMetadata)
        r mail now ttlMs := by
    unfold requestLoginCode
    simp [hu]
  rw [hreq, requestWithUser_reminder s u (normalizeEmail email)
    (metadata.map sanitizeMetadata) r mail now ttlMs t0 ht0 huid hrev hexp huniq]
  refine ⟨?_, ?_, rfl⟩
  · rw [applyLanguageUpdate_snd_tokens, applyProfileUpdates_snd_tokens]
  · rw [hmail]
    simp only [if_true, ite_true]
    exact List.mem_cons_self _ _

/-- Witness for C3: the fixture's active token (expires at 100) is re-sent
at `now = 0` and nothing is minted. -/
theorem requestLoginCode_reminder_witness :
    (0 : Millis) < exToken.expiresAt ∧
      (requestLoginCode exStore "u@x.pl" none exRng ⟨true, true⟩ 0 1000).store.tokens =
        exStore.tokens ∧
      MailEvent.loginCode "u@x.pl" "123456" true ∈
        (requestLoginCode exStore "u@x.pl" none exRng ⟨true, true⟩ 0 1000).mails ∧
      (requestLoginCode exStore "u@x.pl" none exRng ⟨true, true⟩ 0 1000).result =
        .ok { codeSent := false, existingTokenValid := true,
              validUntil := some 100, resentExistingToken := true } := by
  refine ⟨by decide, ?_⟩
  exact requestLoginCode_reminder exStore "u@x.pl" none exRng ⟨true, true⟩ 0 1000
    exUser exToken (by decide) (by decide) (by decide) (by decide) (by decide)
    (by decide) (by decide) rfl

/-! ### C7 -/

/-- C7: when no user matches the normalized email, `requestCode` either
auto-creates the user (when sanitized metadata supplies both names) —
appending exactly one user row with that email and name, minting a code,
emailing it, and answering `codeSent=true` — or fails with the
`BadRequestException` telling the caller to resubmit with a profile,
leaving the store untouched.  (Id-freshness of `nextUserId` mirrors the
generated primary key.) -/
theorem requestLoginCode_autocreate (s : Store) (email : String)
    (metadata : Option LoginCodeRequestMetadata) (r : Rng) (mail : MailBehavior)
    (now ttlMs : Millis)
    (hu : findUserByEmail s (normalizeEmail email) = none) :
    (∀ f l, autoCreateNames (metadata.map sanitizeMetadata) = some (f, l) →
      mail.loginEmailOk = true →
      (∀ t ∈ s.tokens, t.userId ≠ s.nextUserId) →
      (requestLoginCode s email metadata r mail now ttlMs).store.users =
          s.users ++ [{ id := s.nextUserId, email := normalizeEmail email,
                        firstName := some f, lastName := some l,
                        preferredLanguage := some
                          (((metadata.map sanitizeMetadata).bind
                              (fun m => m.language)).getD "pl") }] ∧
        (requestLoginCode s email metadata r mail now ttlMs).result =
          .ok { codeSent := true, existingTokenValid := false,
                validUntil := some (now + ttlMs),
                resentExistingToken := false } ∧
        (∃ c, MailEvent.loginCode (normalizeEmail email) c false ∈
          (requestLoginCode s email metadata r mail now ttlMs).mails)) ∧
    (autoCreateNames (metadata.map sanitizeMetadata) = none →
      requestLoginCode s email metadata r mail now ttlMs =
        { result := .error (.badRequest noAccountMsg), store := s,
          mails := [] }) := by
  constructor
  · intro f l hac hmail hfresh
    cases hmd : metadata.map sanitizeMetadata with
    | none =>
      rw [hmd] at hac
      exact absurd hac (by simp [autoCreateNames])
    | some m =>
      rw [hmd] at hac
      cases hmf : m.firstName with
      | none =>
        rw [autoCreateNames, hmf] at hac
        cases hac
      | some f0 =>
        cases hml : m.lastName with
        | none =>
          rw [autoCreateNames, hmf, hml] at hac
          cases hac
        | some l0 =>
          rw [autoCreateNames, hmf, hml] at hac
          have hf0 : f0 = f := by cases hac; rfl
          have hl0 : l0 = l := by cases hac; rfl
          subst hf0
          subst hl0
          have hreq : requestLoginCode s email metadata r mail now ttlMs =
              requestWithUser
                { s with
                  users := s.users ++
                    [{ id := s.nextUserId, email := normalizeEmail email,
                       firstName := some f0, lastName := some l0,
                       preferredLanguage := some (m.language.getD "pl") }],
                  nextUserId := s.nextUserId + 1 }
                { id := s.nextUserId, email := normalizeEmail email,
                  firstName := some f0, lastName := some l0,
                  preferredLanguage := some (m.language.getD "pl") }
                (normalizeEmail email) (some m) r mail now ttlMs := by
            unfold requestLoginCode
            rw [hmd]
            simp only [hu]
            rw [autoCreateNames, hmf, hml]
            simp [Option.bind]
          rw [hreq]
          set newUser : User :=
            { id := s.nextUserId, email := normalizeEmail email,
              firstName := some f0, lastName := some l0,
              preferredLanguage := some (m.language.getD "pl") } with hnewUser
          set s1 : Store :=
            { s with
              users := s.users ++ [newUser],
              nextUserId := s.nextUserId + 1 } with hs1
          have hupd : profileUpdates newUser m = (none, none) := by
            unfold profileUpdates
            rw [hmf, hml]
            simp [hnewUser]
          have hA : applyProfileUpdates s1 newUser (some m) = (newUser, s1) := by
            simp [applyProfileUpdates, hupd]
          have hB : applyLanguageUpdate s1 newUser (some m) = (newUser, s1) := by
            cases hlg : m.language with
            | none => simp [applyLanguageUpdate, Option.bind, hlg]
            | some lg => simp [applyLanguageUpdate, Option.bind, hlg, hnewUser]
          have hfe : findExistingToken s1.tokens newUser.id = none := by
            unfold findExistingToken
            rw [List.find?_eq_none]
            intro x hx
            have hxid : x.userId ≠ s.nextUserId := hfresh x hx
            simp [hnewUser, hxid]
          have hg : generateLoginToken s1 newUser true r mail now ttlMs =
              { result := .ok (mintedToken s1 newUser r now ttlMs),
                store := { s1 with
                           tokens := revokeActiveTokens newUser.id s1.tokens ++
                             [mintedToken s1 newUser r now ttlMs],
                           nextTokenId := s1.nextTokenId + 1 },
                mails := [.loginCode newUser.email
                  (mintedToken s1 newUser r now ttlMs).code false] } := by
            unfold generateLoginToken
            rw [hmail]
            simp
          have hnto : newTokenOutcome s1 newUser (normalizeEmail email) r mail
              now ttlMs =
              { result := .ok { codeSent := true,
                                existingTokenValid := false,
                                validUntil := some (now + ttlMs),
                                resentExistingToken := false },
                store := { s1 with
                           tokens := revokeActiveTokens newUser.id s1.tokens ++
                             [mintedToken s1 newUser r now ttlMs],
                           nextTokenId := s1.nextTokenId + 1 },
                mails := [.loginCode newUser.email
                    (mintedToken s1 newUser r now ttlMs).code false] ++
                  (if mail.notifyOk then
                    [.accessNotify (normalizeEmail email) .newToken] else []) } := by
            simp only [newTokenOutcome, hg]
            rfl
          have hrw : requestWithUser s1 newUser (normalizeEmail email) (some m)
              r mail now ttlMs =
              newTokenOutcome s1 newUser (normalizeEmail email) r mail now ttlMs := by
            simp only [requestWithUser, hA, hB, hfe]
          rw [hrw, hnto]
          refine ⟨rfl, rfl, ⟨(mintedToken s1 newUser r now ttlMs).code, ?_⟩⟩
          exact List.mem_append_left _ (List.mem_cons_self _ _)
  · intro hac
    unfold requestLoginCode
    simp only [hu, hac]

/-- Witness for C7: the spec's worked example (Jan Kowalski, empty store)
creates the account and mints one code; the same request without metadata
fails with the resubmit-with-profile error. -/
theorem requestLoginCode_autocreate_witness :
    (requestLoginCode { nextUserId := 5 } "New@Example.com" (some mdJan) exRng
          ⟨true, true⟩ 0 1000).store.users =
        [{ id := 5, email := "new@example.com", firstName := some "Jan",
           lastName := some "Kowalski", preferredLanguage := some "pl" }] ∧
      (requestLoginCode { nextUserId := 5 } "New@Example.com" (some mdJan) exRng
          ⟨true, true⟩ 0 1000).result =
        .ok { codeSent := true, existingTokenValid := false,
              validUntil := some 1000, resentExistingToken := false } ∧
      (requestLoginCode { nextUserId := 5 } "New@Example.com" none exRng
          ⟨true, true⟩ 0 1000).result =
        .error (.badRequest noAccountMsg) := by
  have h1 := (requestLoginCode_autocreate { nextUserId := 5 } "New@Example.com"
    (some mdJan) exRng ⟨true, true⟩ 0 1000 (by decide)).1 "Jan" "Kowalski"
    (by decide) rfl (by intro t ht; cases ht)
  have h2 := (requestLoginCode_autocreate { nextUserId := 5 } "New@Example.com"
    none exRng ⟨true, true⟩ 0 1000 (by decide)).2 rfl
  refine ⟨?_, ?_, ?_⟩
  · rw [h1.1]
    decide
  · exact h1.2.1
  · rw [h2]

/-! ### C9 -/

theorem newTokenOutcome_mailFail (s : Store) (u : User) (ne : String) (r : Rng)
    (mail : MailBehavior) (now ttlMs : Millis)
    (hf : mail.loginEmailOk = false) :
    newTokenOutcome s u ne r mail now ttlMs =
      { result := .error .mailFailure,
        store := { s with
                   tokens := revokeActiveTokens u.id s.tokens ++
                     [mintedToken s u r now ttlMs],
                   nextTokenId := s.nextTokenId + 1 },
        mails := [] } := by
  have hg : generateLoginToken s u true r mail now ttlMs =
      { result := .error .mailFailure,
        store := { s with
                   tokens := revokeActiveTokens u.id s.tokens ++
                     [mintedToken s u r now ttlMs],
                   nextTokenId := s.nextTokenId + 1 },
        mails := [] } := by
    unfold generateLoginToken
    rw [hf]
    simp
  simp only [newTokenOutcome, hg]

theorem newTokenOutcome_mailOk (s : Store) (u : User) (ne : String) (r : Rng)
    (mail : MailBehavior) (now ttlMs : Millis)
    (hok : mail.loginEmailOk = true) :
    newTokenOutcome s u ne r mail now ttlMs =
      { result := .ok { codeSent := true,
                        existingTokenValid := false,
                        validUntil := some (now + ttlMs),
                        resentExistingToken := false },
        store := { s with
                   tokens := revokeActiveTokens u.id s.tokens ++
                     [mintedToken s u r now ttlMs],
                   nextTokenId := s.nextTokenId + 1 },
        mails := [.loginCode u.email (mintedToken s u r now ttlMs).code false] ++
          (if mail.notifyOk then [.accessNotify ne .newToken] else []) } := by
  have hg : generateLoginToken s u true r mail now ttlMs =
      { result := .ok (mintedToken s u r now ttlMs),
        store := { s with
                   tokens := revokeActiveTokens u.id s.tokens ++
                     [mintedToken s u r now ttlMs],
                   nextTokenId := s.nextTokenId + 1 },
        mails := [.loginCode u.email (mintedToken s u r now ttlMs).code false] } := by
    unfold generateLoginToken
    rw [hok]
    simp
  simp only [newTokenOutcome, hg]
  rfl

theorem requestWithUser_noExisting (s : Store) (u : User) (ne : String)
    (mdS : Option LoginCodeRequestMetadata) (r : Rng) (mail : MailBehavior)
    (now ttlMs : Millis)
    (hfe : findExistingToken s.tokens u.id = none) :
    requestWithUser s u ne mdS r mail now ttlMs =
      newTokenOutcome
        (applyLanguageUpdate (applyProfileUpdates s u mdS).2
          (applyProfileUpdates s u mdS).1 mdS).2
        (applyLanguageUpdate (applyProfileUpdates s u mdS).2
          (applyProfileUpdates s u mdS).1 mdS).1
        ne r mail now ttlMs := by
  have hfe2 : findExistingToken
      (applyLanguageUpdate (applyProfileUpdates s u mdS).2
        (applyProfileUpdates s u mdS).1 mdS).2.tokens
      (applyLanguageUpdate (applyProfileUpdates s u mdS).2
        (applyProfileUpdates s u mdS).1 mdS).1.id = none := by
    rw [applyLanguageUpdate_snd_tokens, applyProfileUpdates_snd_tokens,
        applyLanguageUpdate_fst_id, applyProfileUpdates_fst_id]
    exact hfe
  simp only [requestWithUser, hfe2]

theorem requestWithUser_newPath (s : Store) (u : User) (ne : String)
    (mdS : Option LoginCodeRequestMetadata) (r : Rng) (mail : MailBehavior)
    (now ttlMs : Millis)
    (hnew : findExistingToken s.tokens u.id = none ∨
      ∃ t, findExistingToken s.tokens u.id = some t ∧ ¬ now < t.expiresAt) :
    requestWithUser s u ne mdS r mail now ttlMs =
      newTokenOutcome
        (applyLanguageUpdate (applyProfileUpdates s u mdS).2
          (applyProfileUpdates s u mdS).1 mdS).2
        (applyLanguageUpdate (applyProfileUpdates s u mdS).2
          (applyProfileUpdates s u mdS).1 mdS).1
        ne r mail now ttlMs := by
  rcases hnew with hfe | ⟨t, hfe, hexp⟩
  · exact requestWithUser_noExisting s u ne mdS r mail now ttlMs hfe
  · have hfe2 : findExistingToken
        (applyLanguageUpdate (applyProfileUpdates s u mdS).2
          (applyProfileUpdates s u mdS).1 mdS).2.tokens
        (applyLanguageUpdate (applyProfileUpdates s u mdS).2
          (applyProfileUpdates s u mdS).1 mdS).1.id = some t := by
      rw [applyLanguageUpdate_snd_tokens, applyProfileUpdates_snd_tokens,
          applyLanguageUpdate_fst_id, applyProfileUpdates_fst_id]
      exact hfe
    simp only [requestWithUser, hfe2, if_neg hexp]

/-- Counterexample to C9 as stated: on the reminder path a failure of the
login-code (reminder) email does NOT propagate — the call still answers
with its normal result and no mail is delivered. -/
theorem requestLoginCode_reminder_mailFail_counterexample :
    (requestLoginCode exStore "u@x.pl" none exRng ⟨false, true⟩ 0 1000).result =
        .ok { codeSent := false, existingTokenValid := true,
              validUntil := some 100, resentExistingToken := true } ∧
      (requestLoginCode exStore "u@x.pl" none exRng ⟨false, true⟩ 0 1000).mails =
        [] := by
  constructor
  · decide
  · decide

/-- C9 (amended): a mail-provider failure while sending the login-code
email propagates to the caller only on the fresh-token path — entered when
the user has no unrevoked token or only an expired one — and the freshly
saved token then remains in the store (all prior active tokens revoked, the
new active token appended); on the reminder path the reminder email and the
admin notification share one try/catch, so a failure of either is caught
and logged and the call still returns its normal reuse result (when only
the notification fails, the reminder email itself is still delivered); an
admin-notification failure on the fresh-token path is likewise caught and
the call still answers `codeSent=true` with the login-code email
delivered. -/
theorem requestLoginCode_mail_failure_handling (s : Store) (email : String)
    (metadata : Option LoginCodeRequestMetadata) (r : Rng)
    (mail : MailBehavior) (now ttlMs : Millis) (u : User)
    (hu : findUserByEmail s (normalizeEmail email) = some u) :
    (mail.loginEmailOk = false →
      (findExistingToken s.tokens u.id = none ∨
        ∃ t, findExistingToken s.tokens u.id = some t ∧ ¬ now < t.expiresAt) →
      (requestLoginCode s email metadata r mail now ttlMs).result =
          .error .mailFailure ∧
        (requestLoginCode s email metadata r mail now ttlMs).mails = [] ∧
        ∃ tok, (requestLoginCode s email metadata r mail now ttlMs).store.tokens =
            revokeActiveTokens u.id s.tokens ++ [tok] ∧
          tok.userId = u.id ∧ tok.revoked = false ∧ tok.consumedAt = none ∧
          tok.expiresAt = now + ttlMs) ∧
    (mail.loginEmailOk = false →
      ∀ t0 ∈ s.tokens, t0.userId = u.id → t0.revoked = false →
      now < t0.expiresAt →
      (∀ tk ∈ s.tokens, tk.userId = u.id → tk.revoked = false → tk = t0) →
      (requestLoginCode s email metadata r mail now ttlMs).result =
          .ok { codeSent := false, existingTokenValid := true,
                validUntil := some t0.expiresAt,
                resentExistingToken := true } ∧
        (requestLoginCode s email metadata r mail now ttlMs).mails = [] ∧
        (requestLoginCode s email metadata r mail now ttlMs).store.tokens =
          s.tokens) ∧
    (mail.loginEmailOk = true → mail.notifyOk = false →
      ∀ t0 ∈ s.tokens, t0.userId = u.id → t0.revoked = false →
      now < t0.expiresAt →
      (∀ tk ∈ s.tokens, tk.userId = u.id → tk.revoked = false → tk = t0) →
      (requestLoginCode s email metadata r mail now ttlMs).result =
          .ok { codeSent := false, existingTokenValid := true,
                validUntil := some t0.expiresAt,
                resentExistingToken := true } ∧
        (requestLoginCode s email metadata r mail now ttlMs).mails =
          [.loginCode u.email t0.code true]) ∧
    (mail.loginEmailOk = true → mail.notifyOk = false →
      (findExistingToken s.tokens u.id = none ∨
        ∃ t, findExistingToken s.tokens u.id = some t ∧ ¬ now < t.expiresAt) →
      (requestLoginCode s email metadata r mail now ttlMs).result =
          .ok { codeSent := true, existingTokenValid := false,
                validUntil := some (now + ttlMs),
                resentExistingToken := false } ∧
        ∃ c, (requestLoginCode s email metadata r mail now ttlMs).mails =
          [.loginCode u.email c false]) := by
  have hreq : requestLoginCode s email metadata r mail now ttlMs =
      requestWithUser s u (normalizeEmail email) (metadata.map sanitizeMetadata)
        r mail now ttlMs := by
    unfold requestLoginCode
    simp [hu]
  have hemail : (applyLanguageUpdate
      (applyProfileUpdates s u (metadata.map sanitizeMetadata)).2
      (applyProfileUpdates s u (metadata.map sanitizeMetadata)).1
      (metadata.map sanitizeMetadata)).1.email = u.email := by
    rw [applyLanguageUpdate_fst_email, applyProfileUpdates_fst_email]
  have hBid : (applyLanguageUpdate
      (applyProfileUpdates s u (metadata.map sanitizeMetadata)).2
      (applyProfileUpdates s u (metadata.map sanitizeMetadata)).1
      (metadata.map sanitizeMetadata)).1.id = u.id := by
    rw [applyLanguageUpdate_fst_id, applyProfileUpdates_fst_id]
  have hBtokens : (applyLanguageUpdate
      (applyProfileUpdates s u (metadata.map sanitizeMetadata)).2
      (applyProfileUpdates s u (metadata.map sanitizeMetadata)).1
      (metadata.map sanitizeMetadata)).2.tokens = s.tokens := by
    rw [applyLanguageUpdate_snd_tokens, applyProfileUpdates_snd_tokens]
  refine ⟨?_, ?_, ?_, ?_⟩
  · intro hf hnew
    rw [hreq, requestWithUser_newPath s u (normalizeEmail email)
      (metadata.map sanitizeMetadata) r mail now ttlMs hnew,
      newTokenOutcome_mailFail
        (applyLanguageUpdate
          (applyProfileUpdates s u (metadata.map sanitizeMetadata)).2
          (applyProfileUpdates s u (metadata.map sanitizeMetadata)).1
          (metadata.map sanitizeMetadata)).2
        (applyLanguageUpdate
          (applyProfileUpdates s u (metadata.map sanitizeMetadata)).2
          (applyProfileUpdates s u (metadata.map sanitizeMetadata)).1
          (metadata.map sanitizeMetadata)).1
        (normalizeEmail email) r mail now ttlMs hf]
    refine ⟨rfl, rfl, ⟨mintedToken
      (applyLanguageUpdate
        (applyProfileUpdates s u (metadata.map sanitizeMetadata)).2
        (applyProfileUpdates s u (metadata.map sanitizeMetadata)).1
        (metadata.map sanitizeMetadata)).2
      (applyLanguageUpdate
        (applyProfileUpdates s u (metadata.map sanitizeMetadata)).2
        (applyProfileUpdates s u (metadata.map sanitizeMetadata)).1
        (metadata.map sanitizeMetadata)).1
      r now ttlMs, ?_, hBid, rfl, rfl, rfl⟩⟩
    show revokeActiveTokens
        (applyLanguageUpdate
          (applyProfileUpdates s u (metadata.map sanitizeMetadata)).2
          (applyProfileUpdates s u (metadata.map sanitizeMetadata)).1
          (metadata.map sanitizeMetadata)).1.id
        (applyLanguageUpdate
          (applyProfileUpdates s u (metadata.map sanitizeMetadata)).2
          (applyProfileUpdates s u (metadata.map sanitizeMetadata)).1
          (metadata.map sanitizeMetadata)).2.tokens ++ _ =
      revokeActiveTokens u.id s.tokens ++ _
    rw [hBid, hBtokens]
  · intro hf t0 ht0 huid hrev hexp huniq
    rw [hreq, requestWithUser_reminder s u (normalizeEmail email)
      (metadata.map sanitizeMetadata) r mail now ttlMs t0 ht0 huid hrev hexp huniq]
    refine ⟨rfl, ?_, hBtokens⟩
    rw [hf]
    simp
  · intro hok hnf t0 ht0 huid hrev hexp huniq
    rw [hreq, requestWithUser_reminder s u (normalizeEmail email)
      (metadata.map sanitizeMetadata) r mail now ttlMs t0 ht0 huid hrev hexp huniq]
    refine ⟨rfl, ?_⟩
    rw [hok, hnf]
    simp
  · intro hok hnf hnew
    rw [hreq, requestWithUser_newPath s u (normalizeEmail email)
      (metadata.map sanitizeMetadata) r mail now ttlMs hnew,
      newTokenOutcome_mailOk
        (applyLanguageUpdate
          (applyProfileUpdates s u (metadata.map sanitizeMetadata)).2
          (applyProfileUpdates s u (metadata.map sanitizeMetadata)).1
          (metadata.map sanitizeMetadata)).2
        (applyLanguageUpdate
          (applyProfileUpdates s u (metadata.map sanitizeMetadata)).2
          (applyProfileUpdates s u (metadata.map sanitizeMetadata)).1
          (metadata.map sanitizeMetadata)).1
        (normalizeEmail email) r mail now ttlMs hok]
    refine ⟨rfl, ?_⟩
    refine ⟨(mintedToken
      (applyLanguageUpdate
        (applyProfileUpdates s u (metadata.map sanitizeMetadata)).2
        (applyProfileUpdates s u (metadata.map sanitizeMetadata)).1
        (metadata.map sanitizeMetadata)).2
      (applyLanguageUpdate
        (applyProfileUpdates s u (metadata.map sanitizeMetadata)).2
        (applyProfileUpdates s u (metadata.map sanitizeMetadata)).1
        (metadata.map sanitizeMetadata)).1
      r now ttlMs).code, ?_⟩
    rw [hnf]
    simp [hemail]

/-- Witness for C9 (amended): with the fixture stores, a failing login
email propagates on the fresh-token path entered through an expired token
(the fresh token staying in the store), is swallowed on the reminder path,
a failing admin notification still lets the reminder email through, and a
failing admin notification on the fresh-token path leaves the normal
result with the login-code mail delivered. -/
theorem requestLoginCode_mail_failure_handling_witness :
    ((requestLoginCode exStore "u@x.pl" none exRng ⟨false, true⟩ 200
          1000).result = .error .mailFailure ∧
        (requestLoginCode exStore "u@x.pl" none exRng ⟨false, true⟩ 200
          1000).mails = [] ∧
        ∃ tok, (requestLoginCode exStore "u@x.pl" none exRng ⟨false, true⟩ 200
            1000).store.tokens =
            revokeActiveTokens exUser.id exStore.tokens ++ [tok] ∧
          tok.userId = exUser.id ∧ tok.revoked = false ∧
          tok.consumedAt = none ∧ tok.expiresAt = 200 + 1000) ∧
      ((requestLoginCode exStore "u@x.pl" none exRng ⟨false, true⟩ 0
            1000).result =
          .ok { codeSent := false, existingTokenValid := true,
                validUntil := some 100, resentExistingToken := true } ∧
        (requestLoginCode exStore "u@x.pl" none exRng ⟨false, true⟩ 0
          1000).mails = [] ∧
        (requestLoginCode exStore "u@x.pl" none exRng ⟨false, true⟩ 0
          1000).store.tokens = exStore.tokens) ∧
      ((requestLoginCode exStore "u@x.pl" none exRng ⟨true, false⟩ 0
            1000).result =
          .ok { codeSent := false, existingTokenValid := true,
                validUntil := some 100, resentExistingToken := true } ∧
        (requestLoginCode exStore "u@x.pl" none exRng ⟨true, false⟩ 0
          1000).mails = [.loginCode "u@x.pl" "123456" true]) ∧
      ((requestLoginCode exStoreNoToken "u@x.pl" none exRng ⟨true, false⟩ 0
            1000).result =
          .ok { codeSent := true, existingTokenValid := false,
                validUntil := some 1000, resentExistingToken := false } ∧
        ∃ c, (requestLoginCode exStoreNoToken "u@x.pl" none exRng ⟨true, false⟩ 0
          1000).mails = [.loginCode "u@x.pl" c false]) := by
  refine ⟨?_, ?_, ?_, ?_⟩
  · exact (requestLoginCode_mail_failure_handling exStore "u@x.pl" none
      exRng ⟨false, true⟩ 200 1000 exUser (by decide)).1 rfl
      (Or.inr ⟨exToken, by decide, by decide⟩)
  · exact (requestLoginCode_mail_failure_handling exStore "u@x.pl" none
      exRng ⟨false, true⟩ 0 1000 exUser (by decide)).2.1 rfl exToken (by decide)
      (by decide) (by decide) (by decide) (by decide)
  · exact (requestLoginCode_mail_failure_handling exStore "u@x.pl" none
      exRng ⟨true, false⟩ 0 1000 exUser (by decide)).2.2.1 rfl rfl exToken
      (by decide) (by decide) (by decide) (by decide) (by decide)
  · exact (requestLoginCode_mail_failure_handling exStoreNoToken "u@x.pl" none
      exRng ⟨true, false⟩ 0 1000 exUser (by decide)).2.2.2 rfl rfl
      (Or.inl (by decide))
/-! ### C8 -/

theorem digit_repr_length (d : Fin 10) : (Nat.repr d.val).length = 1 := by
  revert d
  decide

theorem digit_repr_digits (d : Fin 10) :
    ((Nat.repr d.val).data.all fun c => c.isDigit) = true := by
  revert d
  decide

theorem generateCode_length (ds : Nat → Fin 10) (len : Nat) :
    (generateCode ds len).length = len := by
  induction len with
  | zero => rfl
  | succ n ih =>
    unfold generateCode at ih ⊢
    rw [List.range_succ, List.foldl_append, List.foldl_cons, List.foldl_nil,
        String.length_append, ih, digit_repr_length]

theorem generateCode_digits (ds : Nat → Fin 10) (len : Nat) :
    isDigitString (generateCode ds len) = true := by
  induction len with
  | zero => rfl
  | succ n ih =>
    unfold isDigitString generateCode at ih ⊢
    rw [List.range_succ, List.foldl_append, List.foldl_cons, List.foldl_nil]
    rw [String.data_append, List.all_append, ih, digit_repr_digits]
    rfl

theorem createUniqueCodeGo_all_collide (tokens : List LoginToken) (r : Rng) :
    ∀ fuel start,
      (∀ i, start ≤ i → i < start + fuel →
        codeExists tokens (genCandidate r i) = true) →
      createUniqueCodeGo tokens r start fuel = genFallback r := by
  intro fuel
  induction fuel with
  | zero => intro start _; rfl
  | succ n ih =>
    intro start h
    unfold createUniqueCodeGo
    rw [if_pos (h start (Nat.le_refl start) (by omega))]
    exact ih (start + 1) fun i h1 h2 => h i (by omega) (by omega)

theorem createUniqueCodeGo_finds (tokens : List LoginToken) (r : Rng) :
    ∀ fuel start j, start ≤ j → j < start + fuel →
      (∀ i, start ≤ i → i < j → codeExists tokens (genCandidate r i) = true) →
      codeExists tokens (genCandidate r j) = false →
      createUniqueCodeGo tokens r start fuel = genCandidate r j := by
  intro fuel
  induction fuel with
  | zero =>
    intro start j h1 h2 _ _
    exact absurd h2 (by omega)
  | succ n ih =>
    intro start j h1 h2 h3 h4
    unfold createUniqueCodeGo
    by_cases hj : j = start
    · subst hj
      simp [h4]
    · have hcoll : codeExists tokens (genCandidate r start) = true :=
        h3 start (Nat.le_refl start) (by omega)
      rw [if_pos hcoll]
      exact ih (start + 1) j (by omega) (by omega)
        (fun i hi1 hi2 => h3 i (by omega) hi2) h4

/-- Counterexample to C8 as stated: the 8-digit fallback code is returned
after 10 collisions without any uniqueness check, and here it equals a code
already in the store — so the returned code is NOT always unique among
stored codes. -/
theorem createUniqueCode_counterexample :
    createUniqueCode c8Tokens c8Rng = "11111111" ∧
      codeExists c8Tokens (createUniqueCode c8Tokens c8Rng) = true := by
  constructor
  · decide
  · decide

/-- C8 (amended): `createUniqueCode` draws 6-digit decimal candidates, up
to 10 of them, each checked against the store, and returns the first
non-colliding candidate (which is then unique among stored codes); after 10
consecutive collisions it returns an 8-digit decimal code without a further
uniqueness check, so the fallback is not guaranteed unique. -/
theorem createUniqueCode_spec (tokens : List LoginToken) (r : Rng) :
    (∀ i, (genCandidate r i).length = 6 ∧ isDigitString (genCandidate r i) = true) ∧
    ((genFallback r).length = 8 ∧ isDigitString (genFallback r) = true) ∧
    (∀ j, j < maxTries →
      (∀ i, i < j → codeExists tokens (genCandidate r i) = true) →
      codeExists tokens (genCandidate r j) = false →
      createUniqueCode tokens r = genCandidate r j ∧
        codeExists tokens (createUniqueCode tokens r) = false) ∧
    ((∀ i, i < maxTries → codeExists tokens (genCandidate r i) = true) →
      createUniqueCode tokens r = genFallback r) := by
  refine ⟨?_, ⟨generateCode_length _ 8, generateCode_digits _ 8⟩, ?_, ?_⟩
  · intro i
    exact ⟨generateCode_length _ 6, generateCode_digits _ 6⟩
  · intro j hj hcoll hnew
    have hfind : createUniqueCode tokens r = genCandidate r j := by
      unfold createUniqueCode
      exact createUniqueCodeGo_finds tokens r maxTries 0 j (Nat.zero_le j)
        (by omega) (fun i _ hi2 => hcoll i hi2) hnew
    refine ⟨hfind, ?_⟩
    rw [hfind]
    exact hnew
  · intro h
    unfold createUniqueCode
    exact createUniqueCodeGo_all_collide tokens r maxTries 0
      fun i _ h2 => h i (by omega)

/-- Witness for C8 (amended): a first non-colliding candidate is returned
and is unique; and with every candidate colliding, the fallback comes back. -/
theorem createUniqueCode_spec_witness :
    createUniqueCode exStore.tokens exRng = "000000" ∧
      codeExists exStore.tokens (createUniqueCode exStore.tokens exRng) = false ∧
      createUniqueCode c8Tokens c8Rng = genFallback c8Rng := by
  have h1 := (createUniqueCode_spec exStore.tokens exRng).2.2.1 0 (by decide)
    (fun i hi => absurd hi (by omega)) (by decide)
  have h2 := (createUniqueCode_spec c8Tokens c8Rng).2.2.2 (by decide)
  exact ⟨h1.1, h1.2, h2⟩

end MSBackend
